import Mathlib

/-!
# Verification of the messaging-service core

A shallow embedding, in Lean, of the conversation / authorization /
aggregation engine of the messaging service: the Express route handlers of
`server.js` (direct messages) and of the extended server file (groups and
AI chat history), together with the client-side `loadAiHistory` transform
of `App.js`.  The relational store is modelled as lists of rows; each route
handler becomes a pure function from a database state (plus the request
parameters and the freshly generated row ids / timestamps that PostgreSQL
would supply) to a response and a successor state.

Timestamps and ids are natural numbers.  SQL `ORDER BY` is modelled with
`List.insertionSort` over the relation the query names; `DISTINCT ON` is
modelled by sorting on the distinct key first and keeping the first row of
each key group, which is exactly PostgreSQL's semantics for the
conversation-list query.
-/

namespace Messaging

/-- A row of the `users` table. -/
structure User where
  id : Nat
  username : String
  email : String
  password_hash : String
  deriving DecidableEq, Repr

/-- A row of the `messages` table (direct messages). -/
structure Message where
  id : Nat
  sender_id : Nat
  recipient_id : Nat
  content : String
  created_at : Nat
  is_read : Bool
  deriving DecidableEq, Repr

/-- A row of the `groups` table. -/
structure Group where
  id : Nat
  name : String
  description : Option String
  created_by : Nat
  created_at : Nat
  deriving DecidableEq, Repr

/-- A row of the `group_members` table. -/
structure GroupMember where
  group_id : Nat
  user_id : Nat
  joined_at : Nat
  deriving DecidableEq, Repr

/-- A row of the `group_messages` table. -/
structure GroupMessage where
  id : Nat
  group_id : Nat
  sender_id : Nat
  content : String
  created_at : Nat
  deriving DecidableEq, Repr

/-- A row of the `ai_chat_history` table. -/
structure AiExchange where
  id : Nat
  user_id : Nat
  message : String
  response : String
  created_at : Nat
  deriving DecidableEq, Repr

/-- The whole relational store. -/
structure DB where
  users : List User
  messages : List Message
  groups : List Group
  group_members : List GroupMember
  group_messages : List GroupMessage
  ai_chat_history : List AiExchange
  deriving DecidableEq, Repr

/-- The error taxonomy of the route handlers, by HTTP response:
`selfMessage` is the 400 "Cannot send message to yourself",
`recipientNotFound` the 404 "Recipient not found",
`notFoundOrUnauthorized` the merged 404 of the message PATCH/DELETE routes,
`forbiddenNotMember` the 403 "You are not a member of this group",
`serverError` the catch-all 500. -/
inductive ApiError where
  | selfMessage
  | recipientNotFound
  | notFoundOrUnauthorized
  | forbiddenNotMember
  | serverError
  deriving DecidableEq, Repr

/-- `SELECT ... FROM users WHERE id = $1` (first matching row). -/
def findUser (db : DB) (uid : Nat) : Option User :=
  db.users.find? (fun u => decide (u.id = uid))

/-- `POST /api/messages`: send a direct message.  Rejects `sender = recipient`
with a 400, then checks the recipient exists, then inserts a row whose
`is_read` takes the schema default `false` and whose `id` / `created_at`
PostgreSQL would generate (`newId`, `now` here).  Returns the response and
the successor state. -/
def sendMessage (db : DB) (sender_id recipient_id : Nat) (content : String)
    (newId now : Nat) : Except ApiError Message × DB :=
  if sender_id = recipient_id then
    (.error .selfMessage, db)
  else if (findUser db recipient_id).isNone then
    (.error .recipientNotFound, db)
  else
    let m : Message := ⟨newId, sender_id, recipient_id, content, now, false⟩
    (.ok m, { db with messages := db.messages ++ [m] })

/-- The `WHERE id = $1 AND recipient_id = $2` condition of the mark-read
update. -/
def readMatch (messageId userId : Nat) (m : Message) : Bool :=
  decide (m.id = messageId ∧ m.recipient_id = userId)

/-- `PATCH /api/messages/:id/read`: run
`UPDATE messages SET is_read = true WHERE id = $1 AND recipient_id = $2
RETURNING *`; answer 404 `notFoundOrUnauthorized` when no row matched,
otherwise return the updated rows. -/
def markRead (db : DB) (messageId userId : Nat) :
    Except ApiError (List Message) × DB :=
  let matched := db.messages.filter (readMatch messageId userId)
  let updated := db.messages.map fun m =>
    if readMatch messageId userId m then { m with is_read := true } else m
  let db2 := { db with messages := updated }
  if matched.isEmpty then
    (.error .notFoundOrUnauthorized, db2)
  else
    (.ok (matched.map fun m => { m with is_read := true }), db2)

/-- A row of `GET /api/messages/:userId`: `m.*` joined with both endpoints'
usernames (`u1.username as sender_username`, `u2.username as
recipient_username`). -/
structure MessageRow where
  id : Nat
  sender_id : Nat
  recipient_id : Nat
  content : String
  created_at : Nat
  is_read : Bool
  sender_username : String
  recipient_username : String
  deriving DecidableEq, Repr

/-- The two `JOIN users` clauses of the message queries: a message row
survives the join exactly when both endpoints exist, and then carries their
usernames. -/
def joinUsernames (db : DB) (m : Message) : Option MessageRow := do
  let u1 ← findUser db m.sender_id
  let u2 ← findUser db m.recipient_id
  some ⟨m.id, m.sender_id, m.recipient_id, m.content, m.created_at, m.is_read,
        u1.username, u2.username⟩

/-- `ORDER BY m.created_at ASC` on joined message rows. -/
def byCreatedAtAsc (a b : MessageRow) : Prop :=
  a.created_at ≤ b.created_at

instance : DecidableRel byCreatedAtAsc := fun a b => Nat.decLe a.created_at b.created_at

instance : IsTotal MessageRow byCreatedAtAsc := ⟨fun a b => Nat.le_total a.created_at b.created_at⟩

instance : IsTrans MessageRow byCreatedAtAsc := ⟨fun _ _ _ => Nat.le_trans⟩

/-- The `WHERE` clause of `GET /api/messages/:userId`: the message's
endpoints are the pair in one direction or the other. -/
def betweenUsers (currentUserId otherUserId : Nat) (m : Message) : Bool :=
  decide ((m.sender_id = currentUserId ∧ m.recipient_id = otherUserId) ∨
          (m.sender_id = otherUserId ∧ m.recipient_id = currentUserId))

/-- `GET /api/messages/:userId`: all messages between the current user and
the other user, in both directions, joined with usernames, ordered by
`created_at` ascending, with no `LIMIT`. -/
def conversationWith (db : DB) (currentUserId otherUserId : Nat) : List MessageRow :=
  List.insertionSort byCreatedAtAsc
    ((db.messages.filter (betweenUsers currentUserId otherUserId)).filterMap
      (joinUsernames db))

/-- The `CASE WHEN m.sender_id = $1 THEN m.recipient_id ELSE m.sender_id END`
expression: the counterpart of the current user on a message. -/
def counterpart (userId : Nat) (m : Message) : Nat :=
  if m.sender_id = userId then m.recipient_id else m.sender_id

/-- A row of `GET /api/messages` (the conversation list): `m.*`, both
usernames, and the counterpart's id and username. -/
structure ConversationRow where
  id : Nat
  sender_id : Nat
  recipient_id : Nat
  content : String
  created_at : Nat
  is_read : Bool
  sender_username : String
  recipient_username : String
  other_user : String
  other_user_id : Nat
  deriving DecidableEq, Repr

/-- The join and projection of the conversation-list query applied to one
message row. -/
def joinConversation (db : DB) (userId : Nat) (m : Message) : Option ConversationRow := do
  let u1 ← findUser db m.sender_id
  let u2 ← findUser db m.recipient_id
  some ⟨m.id, m.sender_id, m.recipient_id, m.content, m.created_at, m.is_read,
        u1.username, u2.username,
        if m.sender_id = userId then u2.username else u1.username,
        counterpart userId m⟩

/-- The `ORDER BY counterpart, m.created_at DESC` of the `DISTINCT ON`
conversation-list query: counterpart ascending first, then timestamp
descending inside a counterpart group. -/
def byCounterpartThenNewest (a b : ConversationRow) : Prop :=
  a.other_user_id < b.other_user_id ∨
    (a.other_user_id = b.other_user_id ∧ b.created_at ≤ a.created_at)

instance : DecidableRel byCounterpartThenNewest := fun _a _b =>
  instDecidableOr

instance : IsTotal ConversationRow byCounterpartThenNewest where
  total a b := by
    rcases Nat.lt_trichotomy a.other_user_id b.other_user_id with h | h | h
    · exact Or.inl (Or.inl h)
    · rcases Nat.le_total b.created_at a.created_at with h2 | h2
      · exact Or.inl (Or.inr ⟨h, h2⟩)
      · exact Or.inr (Or.inr ⟨h.symm, h2⟩)
    · exact Or.inr (Or.inl h)

instance : IsTrans ConversationRow byCounterpartThenNewest where
  trans a b c hab hbc := by
    rcases hab with h1 | ⟨e1, t1⟩
    · rcases hbc with h2 | ⟨e2, _⟩
      · exact Or.inl (Nat.lt_trans h1 h2)
      · exact Or.inl (e2 ▸ h1)
    · rcases hbc with h2 | ⟨e2, t2⟩
      · exact Or.inl (e1 ▸ h2)
      · exact Or.inr ⟨e1.trans e2, Nat.le_trans t2 t1⟩

/-- PostgreSQL `SELECT DISTINCT ON (k) ... ORDER BY k, ...`: after the sort,
keep the first row of each key group. -/
def distinctOn {α : Type} (key : α → Nat) : List α → List α
  | [] => []
  | x :: xs => x :: (distinctOn key xs).filter fun y => decide (key y ≠ key x)

/-- `GET /api/messages`: the conversation list.  All messages the user sent
or received are joined and projected, sorted by
`(counterpart, created_at DESC)`, and `DISTINCT ON (counterpart)` keeps the
first (newest) row of each counterpart group.  The output order is the sort
order of the kept rows, i.e. counterpart ascending. -/
def listConversations (db : DB) (userId : Nat) : List ConversationRow :=
  distinctOn (fun r => r.other_user_id)
    (List.insertionSort byCounterpartThenNewest
      ((db.messages.filter fun m =>
          decide (m.sender_id = userId ∨ m.recipient_id = userId)).filterMap
        (joinConversation db userId)))

/-- `SELECT * FROM group_members WHERE group_id = $1 AND user_id = $2`
returned at least one row: the membership predicate every guard runs. -/
def isMember (db : DB) (groupId userId : Nat) : Bool :=
  db.group_members.any fun gm => decide (gm.group_id = groupId ∧ gm.user_id = userId)

/-- `POST /api/groups`: insert the group row, then — in a second, separate
statement with no surrounding transaction — insert the creator's
membership.  `membershipInsertOk` models whether that second statement
succeeds; when it fails the handler answers 500, but the already committed
group row persists. -/
def createGroup (db : DB) (name : String) (description : Option String)
    (creatorId newGroupId now : Nat) (membershipInsertOk : Bool) :
    Except ApiError Group × DB :=
  let g : Group := ⟨newGroupId, name, description, creatorId, now⟩
  let db1 := { db with groups := db.groups ++ [g] }
  if membershipInsertOk then
    (.ok g, { db1 with group_members := db1.group_members ++ [⟨newGroupId, creatorId, now⟩] })
  else
    (.error .serverError, db1)

/-- `POST /api/groups/:groupId/members`: requires the requester — not the
target — to be a member, then runs an
`INSERT ... ON CONFLICT DO NOTHING` keyed on the `(group_id, user_id)`
uniqueness, so adding an existing member leaves the relation unchanged and
still answers success. -/
def addGroupMember (db : DB) (groupId requesterId targetUserId now : Nat) :
    Except ApiError Unit × DB :=
  if isMember db groupId requesterId then
    if isMember db groupId targetUserId then
      (.ok (), db)
    else
      (.ok (), { db with group_members := db.group_members ++ [⟨groupId, targetUserId, now⟩] })
  else
    (.error .forbiddenNotMember, db)

/-- A row of `GET /api/groups/:groupId/messages`: `gm.*` joined with the
sender's username. -/
structure GroupMessageRow where
  id : Nat
  group_id : Nat
  sender_id : Nat
  content : String
  created_at : Nat
  sender_username : String
  deriving DecidableEq, Repr

/-- The `JOIN users u ON gm.sender_id = u.id` of the group-message list. -/
def joinGroupMessage (db : DB) (gm : GroupMessage) : Option GroupMessageRow := do
  let u ← findUser db gm.sender_id
  some ⟨gm.id, gm.group_id, gm.sender_id, gm.content, gm.created_at, u.username⟩

/-- `ORDER BY gm.created_at ASC` on joined group-message rows. -/
def byGroupMsgCreatedAtAsc (a b : GroupMessageRow) : Prop :=
  a.created_at ≤ b.created_at

instance : DecidableRel byGroupMsgCreatedAtAsc := fun a b =>
  Nat.decLe a.created_at b.created_at

instance : IsTotal GroupMessageRow byGroupMsgCreatedAtAsc :=
  ⟨fun a b => Nat.le_total a.created_at b.created_at⟩

instance : IsTrans GroupMessageRow byGroupMsgCreatedAtAsc :=
  ⟨fun _ _ _ => Nat.le_trans⟩

/-- `GET /api/groups/:groupId/messages`: guarded by the requester's
membership, then the group's messages ascending by `created_at`, with
sender usernames joined in. -/
def getGroupMessages (db : DB) (groupId requesterId : Nat) :
    Except ApiError (List GroupMessageRow) :=
  if isMember db groupId requesterId then
    .ok (List.insertionSort byGroupMsgCreatedAtAsc
      ((db.group_messages.filter fun gm => decide (gm.group_id = groupId)).filterMap
        (joinGroupMessage db)))
  else
    .error .forbiddenNotMember

/-- `POST /api/groups/:groupId/messages`: guarded by the sender's
membership, then inserts the group message. -/
def postGroupMessage (db : DB) (groupId senderId : Nat) (content : String)
    (newId now : Nat) : Except ApiError GroupMessage × DB :=
  if isMember db groupId senderId then
    let gm : GroupMessage := ⟨newId, groupId, senderId, content, now⟩
    (.ok gm, { db with group_messages := db.group_messages ++ [gm] })
  else
    (.error .forbiddenNotMember, db)

/-- A row of `GET /api/groups/:groupId/members`: `u.id, u.username, u.email,
gm.joined_at`. -/
structure MemberRow where
  id : Nat
  username : String
  email : String
  joined_at : Nat
  deriving DecidableEq, Repr

/-- `ORDER BY gm.joined_at ASC` on member rows. -/
def byJoinedAtAsc (a b : MemberRow) : Prop :=
  a.joined_at ≤ b.joined_at

instance : DecidableRel byJoinedAtAsc := fun a b =>
  Nat.decLe a.joined_at b.joined_at

instance : IsTotal MemberRow byJoinedAtAsc :=
  ⟨fun a b => Nat.le_total a.joined_at b.joined_at⟩

instance : IsTrans MemberRow byJoinedAtAsc :=
  ⟨fun _ _ _ => Nat.le_trans⟩

/-- `GET /api/groups/:groupId/members`: the handler takes the authenticated
requester (`req.user.id`) but — unlike the other three group routes — runs
no membership check at all: it returns the joined member rows, ascending by
`joined_at`, to any authenticated caller. -/
def getGroupMembers (db : DB) (groupId requesterId : Nat) :
    Except ApiError (List MemberRow) :=
  let _ := requesterId
  .ok (List.insertionSort byJoinedAtAsc
    ((db.group_members.filter fun gm => decide (gm.group_id = groupId)).filterMap
      fun gm => do
        let u ← findUser db gm.user_id
        some ⟨u.id, u.username, u.email, gm.joined_at⟩))

/-- `ORDER BY created_at DESC` on AI exchanges. -/
def byAiNewestFirst (a b : AiExchange) : Prop :=
  b.created_at ≤ a.created_at

instance : DecidableRel byAiNewestFirst := fun a b =>
  Nat.decLe b.created_at a.created_at

instance : IsTotal AiExchange byAiNewestFirst :=
  ⟨fun a b => (Nat.le_total b.created_at a.created_at).imp id id⟩

instance : IsTrans AiExchange byAiNewestFirst :=
  ⟨fun _ _ _ h1 h2 => Nat.le_trans h2 h1⟩

/-- `GET /api/ai/history`:
`SELECT * FROM ai_chat_history WHERE user_id = $1 ORDER BY created_at DESC
LIMIT 50` — the user's exchanges, newest first, at most 50 rows. -/
def getAiHistory (db : DB) (userId : Nat) : List AiExchange :=
  (List.insertionSort byAiNewestFirst
    (db.ai_chat_history.filter fun r => decide (r.user_id = userId))).take 50

/-- The role tag of a client-side chat bubble. -/
inductive Role where
  | user
  | assistant
  deriving DecidableEq, Repr

/-- A client-side chat bubble: `{role, content}`. -/
structure Turn where
  role : Role
  content : String
  deriving DecidableEq, Repr

/-- The client's `loadAiHistory` transform (`App.js`): for each history row,
in the order the server sent them, push the user's part then the AI's part.
The client performs no re-ordering of the rows. -/
def loadAiHistory (history : List AiExchange) : List Turn :=
  history.flatMap fun row => [⟨Role.user, row.message⟩, ⟨Role.assistant, row.response⟩]

/-- `DELETE /api/ai/history`:
`DELETE FROM ai_chat_history WHERE user_id = $1`. -/
def clearAiHistory (db : DB) (userId : Nat) : DB :=
  { db with ai_chat_history := db.ai_chat_history.filter fun r => decide (r.user_id ≠ userId) }

/-! ## Concrete states used to exercise the handlers -/

/-- Example user row. -/
def userAlice : User := ⟨1, "alice", "a@x", "h1"⟩

/-- Example user row. -/
def userBob : User := ⟨2, "bob", "b@x", "h2"⟩

/-- Example user row. -/
def userCarol : User := ⟨3, "carol", "c@x", "h3"⟩

/-- A store where user 1 has two conversations: the counterpart-2 thread's
last message is at time 5, the counterpart-3 thread's at time 10. -/
def exDbConv : DB :=
  ⟨[userAlice, userBob, userCarol],
   [⟨1, 2, 1, "hi from bob", 5, false⟩, ⟨2, 3, 1, "hi from carol", 10, false⟩],
   [], [], [], []⟩

/-- A store where user 1 has two AI exchanges, the first at time 1, the
second at time 2. -/
def exDbAi : DB :=
  ⟨[userAlice], [], [], [], [],
   [⟨1, 1, "m1", "r1", 1⟩, ⟨2, 1, "m2", "r2", 2⟩]⟩

/-- A store with one group whose only member is user 1; user 2 exists but is
not a member. -/
def exDbGroup : DB :=
  ⟨[userAlice, userBob], [], [⟨1, "g", none, 1, 0⟩], [⟨1, 1, 0⟩], [], []⟩

/-- A store with one user and nothing else. -/
def exDbEmpty : DB :=
  ⟨[userAlice], [], [], [], [], []⟩

/-- A store with one unread direct message from user 1 to user 2. -/
def exDbMsg : DB :=
  ⟨[userAlice, userBob], [⟨7, 1, 2, "hello", 3, false⟩], [], [], [], []⟩

/-- A store with one direct message to user 1 that is already read. -/
def exDbRead : DB :=
  ⟨[userAlice, userBob], [⟨8, 2, 1, "yo", 4, true⟩], [], [], [], []⟩

/-! ## General lemmas about the embedded operations -/

/-- Membership in a store whose `group_members` list grew on the right. -/
theorem isMember_append (db : DB) (l2 : List GroupMember) (g u : Nat) :
    isMember { db with group_members := db.group_members ++ l2 } g u =
      (isMember db g u || l2.any fun gm => decide (gm.group_id = g ∧ gm.user_id = u)) := by
  simp [isMember, List.any_append]

/-- A failed membership test means the `(group_id, user_id)` pair is not in
the relation. -/
theorem isMember_false_not_mem {db : DB} {g t : Nat} (h : isMember db g t = false) :
    (g, t) ∉ db.group_members.map fun gm => (gm.group_id, gm.user_id) := by
  intro hmem
  rcases List.mem_map.mp hmem with ⟨gm, hgm, he⟩
  have htrue : isMember db g t = true := by
    unfold isMember
    rw [List.any_eq_true]
    refine ⟨gm, hgm, ?_⟩
    have h1 : gm.group_id = g := congrArg Prod.fst he
    have h2 : gm.user_id = t := congrArg Prod.snd he
    simp [h1, h2]
  rw [h] at htrue
  exact Bool.false_ne_true htrue

/-- Updating a message's read flag to its current value changes nothing. -/
theorem Message_set_read_self {m : Message} (h : m.is_read = true) :
    { m with is_read := true } = m := by
  cases m
  simp_all

/-- Replacing the message table by itself changes nothing. -/
theorem DB_set_messages_self (db : DB) : { db with messages := db.messages } = db := by
  cases db
  rfl

/-- The successor state of the mark-read route is the `UPDATE` applied to
the message table, whether or not a row matched. -/
theorem markRead_snd (db : DB) (mid uid : Nat) :
    (markRead db mid uid).2 =
      { db with messages := db.messages.map fun m =>
          if readMatch mid uid m then { m with is_read := true } else m } := by
  unfold markRead
  by_cases h : (db.messages.filter (readMatch mid uid)).isEmpty = true <;>
    simp [h]

/-- The mark-read route matched no row exactly when no stored message has
the given id with the acting user as recipient. -/
theorem markRead_filter_nil_iff (db : DB) (mid uid : Nat) :
    db.messages.filter (readMatch mid uid) = [] ↔
      ∀ m ∈ db.messages, ¬(m.id = mid ∧ m.recipient_id = uid) := by
  rw [List.filter_eq_nil_iff]
  constructor
  · intro h m hm
    have := h m hm
    simpa [readMatch] using this
  · intro h m hm
    simpa [readMatch] using h m hm

/-! ## Claim theorems -/

/-- C4: `Send(S, R, x)` fails with `SelfMessageError` when `S = R`, fails
with `RecipientNotFound` when `R` is not in the user store, and otherwise
appends exactly one message row `⟨newId, S, R, x, now, false⟩` (so
`is_read = false`) and returns it; in both failure cases the store is
unchanged, so no message row is created. -/
theorem sendMessage_spec (db : DB) (s r : Nat) (x : String) (newId now : Nat) :
    (s = r → sendMessage db s r x newId now = (.error .selfMessage, db)) ∧
    (s ≠ r → findUser db r = none →
      sendMessage db s r x newId now = (.error .recipientNotFound, db)) ∧
    (s ≠ r → ∀ u, findUser db r = some u →
      sendMessage db s r x newId now =
        (.ok ⟨newId, s, r, x, now, false⟩,
         { db with messages := db.messages ++ [⟨newId, s, r, x, now, false⟩] })) := by
  refine ⟨?_, ?_, ?_⟩
  · intro h
    simp [sendMessage, h]
  · intro h hn
    simp [sendMessage, h, hn]
  · intro h u hu
    simp [sendMessage, h, hu]

/-- Witness for C4: at a concrete store, the self-message and
missing-recipient calls fail without touching the store, and a valid send
appends exactly the created row. -/
theorem sendMessage_spec_witness :
    sendMessage exDbMsg 1 1 "x" 9 9 = (.error .selfMessage, exDbMsg) ∧
    sendMessage exDbMsg 1 99 "x" 9 9 = (.error .recipientNotFound, exDbMsg) ∧
    sendMessage exDbMsg 1 2 "x" 9 9 =
      (.ok ⟨9, 1, 2, "x", 9, false⟩,
       { exDbMsg with messages := exDbMsg.messages ++ [⟨9, 1, 2, "x", 9, false⟩] }) := by
  exact ⟨(sendMessage_spec exDbMsg 1 1 "x" 9 9).1 rfl,
         (sendMessage_spec exDbMsg 1 99 "x" 9 9).2.1 (by decide) (by rfl),
         (sendMessage_spec exDbMsg 1 2 "x" 9 9).2.2 (by decide) userBob (by rfl)⟩

/-- C6 (code bug): the group insert and the creator-membership insert are
two separate statements with no transaction, so when the membership insert
fails the handler answers 500 while the already-committed group row
persists with no members — the creator is not a member, a dangling group.
When the membership insert succeeds the creator is a member. -/
theorem createGroup_dangling_group :
    (createGroup exDbEmpty "g" none 1 1 0 false).1 = .error .serverError ∧
    (⟨1, "g", none, 1, 0⟩ : Group) ∈ (createGroup exDbEmpty "g" none 1 1 0 false).2.groups ∧
    isMember (createGroup exDbEmpty "g" none 1 1 0 false).2 1 1 = false ∧
    isMember (createGroup exDbEmpty "g" none 1 1 0 true).2 1 1 = true := by
  exact ⟨rfl, by decide, by decide, by decide⟩

/-- Counterexample to C3: user 2 is not a member of group 1, yet the
member-listing route answers success with the full member list instead of
the Forbidden error the claim requires. -/
theorem getGroupMembers_no_guard_cex :
    isMember exDbGroup 1 2 = false ∧
    getGroupMembers exDbGroup 1 2 = .ok [⟨1, "alice", "a@x", 0⟩] := by
  exact ⟨by decide, by rfl⟩

/-- C3 (amended): listing group messages, posting a group message and adding
a member all check the acting user's membership and fail with the Forbidden
error (leaving the store unchanged) when it does not hold; the member
listing, however, performs no membership check and answers success for
every authenticated caller. -/
theorem groupGuard_spec (db : DB) (g u targetId newId now : Nat) (content : String) :
    (isMember db g u = false →
      getGroupMessages db g u = .error .forbiddenNotMember ∧
      postGroupMessage db g u content newId now = (.error .forbiddenNotMember, db) ∧
      addGroupMember db g u targetId now = (.error .forbiddenNotMember, db)) ∧
    (∃ rows, getGroupMembers db g u = .ok rows) := by
  constructor
  · intro h
    refine ⟨?_, ?_, ?_⟩ <;> simp [getGroupMessages, postGroupMessage, addGroupMember, h]
  · exact ⟨_, rfl⟩

/-- Witness for C3 (amended): at a concrete store, the non-member caller is
rejected by the three guarded routes and still receives the member list
from the unguarded one. -/
theorem groupGuard_spec_witness :
    getGroupMessages exDbGroup 1 2 = .error .forbiddenNotMember ∧
    postGroupMessage exDbGroup 1 2 "hi" 9 9 = (.error .forbiddenNotMember, exDbGroup) ∧
    addGroupMember exDbGroup 1 2 3 9 = (.error .forbiddenNotMember, exDbGroup) ∧
    (∃ rows, getGroupMembers exDbGroup 1 2 = .ok rows) := by
  have h := groupGuard_spec exDbGroup 1 2 3 9 9 "hi"
  have h1 := h.1 (by decide)
  exact ⟨h1.1, h1.2.1, h1.2.2, h.2⟩

/-- C9: clearing the AI history removes exactly the acting user's exchanges
— a row survives iff it belongs to another user — and leaves every other
table of the store untouched. -/
theorem clearAiHistory_spec (db : DB) (u : Nat) :
    (∀ r : AiExchange, r ∈ (clearAiHistory db u).ai_chat_history ↔
        r ∈ db.ai_chat_history ∧ r.user_id ≠ u) ∧
    (clearAiHistory db u).users = db.users ∧
    (clearAiHistory db u).messages = db.messages ∧
    (clearAiHistory db u).groups = db.groups ∧
    (clearAiHistory db u).group_members = db.group_members ∧
    (clearAiHistory db u).group_messages = db.group_messages := by
  refine ⟨fun r => ?_, rfl, rfl, rfl, rfl, rfl⟩
  simp [clearAiHistory, List.mem_filter]

/-- Witness for C9: at a concrete store, the owner's exchange is gone after
clearing and the user table is untouched. -/
theorem clearAiHistory_spec_witness :
    (⟨1, 1, "m1", "r1", 1⟩ : AiExchange) ∉ (clearAiHistory exDbAi 1).ai_chat_history ∧
    (clearAiHistory exDbAi 1).users = exDbAi.users := by
  refine ⟨fun hmem => ?_, (clearAiHistory_spec exDbAi 1).2.1⟩
  exact (((clearAiHistory_spec exDbAi 1).1 _).mp hmem).2 rfl

/-- C7: a requester who is a member may add any target user: the call
succeeds, the target is a member afterwards, adding an existing member is a
silent no-op on the store, the operation is idempotent, and it preserves
uniqueness of the `(group_id, user_id)` pairs. -/
theorem addGroupMember_spec (db : DB) (g r t now : Nat) (hr : isMember db g r = true) :
    (addGroupMember db g r t now).1 = .ok () ∧
    isMember (addGroupMember db g r t now).2 g t = true ∧
    (isMember db g t = true → (addGroupMember db g r t now).2 = db) ∧
    (addGroupMember (addGroupMember db g r t now).2 g r t now).2 =
      (addGroupMember db g r t now).2 ∧
    ((db.group_members.map fun gm => (gm.group_id, gm.user_id)).Nodup →
      ((addGroupMember db g r t now).2.group_members.map fun gm =>
        (gm.group_id, gm.user_id)).Nodup) := by
  by_cases ht : isMember db g t = true
  · simp [addGroupMember, hr, ht]
  · have ht2 : isMember db g t = false := by
      cases h : isMember db g t
      · rfl
      · exact absurd h ht
    have hmem2 : isMember { db with group_members := db.group_members ++ [⟨g, t, now⟩] } g t = true := by
      rw [isMember_append]
      simp
    have hreq2 : isMember { db with group_members := db.group_members ++ [⟨g, t, now⟩] } g r = true := by
      rw [isMember_append, hr]
      simp
    refine ⟨?_, ?_, ?_, ?_, ?_⟩
    · simp [addGroupMember, hr, ht2]
    · simp only [addGroupMember, hr, ht2, if_true, if_false, Bool.false_eq_true]
      exact hmem2
    · intro h
      rw [ht2] at h
      exact absurd h (by simp)
    · simp only [addGroupMember, hr, ht2, if_true, if_false, Bool.false_eq_true]
      simp only [hreq2, hmem2, if_true]
    · intro hnd
      simp only [addGroupMember, hr, ht2, if_true, if_false, Bool.false_eq_true]
      simp only [List.map_append, List.map_cons, List.map_nil]
      rw [List.nodup_append]
      refine ⟨hnd, List.nodup_singleton _, ?_⟩
      intro p hp hq
      simp only [List.mem_singleton] at hq
      subst hq
      exact isMember_false_not_mem ht2 hp

/-- Witness for C7: in the concrete group store, member 1 adds non-member 2;
the call succeeds, 2 becomes a member, and repeating the call changes
nothing. -/
theorem addGroupMember_spec_witness :
    (addGroupMember exDbGroup 1 1 2 5).1 = .ok () ∧
    isMember (addGroupMember exDbGroup 1 1 2 5).2 1 2 = true ∧
    (addGroupMember (addGroupMember exDbGroup 1 1 2 5).2 1 1 2 5).2 =
      (addGroupMember exDbGroup 1 1 2 5).2 := by
  have h := addGroupMember_spec exDbGroup 1 1 2 5 (by decide)
  exact ⟨h.1, h.2.1, h.2.2.2.1⟩

/-- C5: the mark-read route answers the single merged
`NotFoundOrUnauthorized` error exactly when no stored message has the given
id with the acting user as recipient (message absent or caller not its
recipient), and then the store is unchanged; position by position, a row
matching both id and recipient gets `is_read := true` and every other row —
in particular every row whose recipient is not the caller — is returned
unchanged. -/
theorem markRead_spec (db : DB) (mid uid : Nat) :
    ((markRead db mid uid).1 = .error .notFoundOrUnauthorized ↔
        ∀ m ∈ db.messages, ¬(m.id = mid ∧ m.recipient_id = uid)) ∧
    ((∀ m ∈ db.messages, ¬(m.id = mid ∧ m.recipient_id = uid)) →
        (markRead db mid uid).2 = db) ∧
    (∀ i (hi : i < db.messages.length),
      (db.messages[i].id = mid ∧ db.messages[i].recipient_id = uid →
        ((markRead db mid uid).2.messages)[i]? =
          some { db.messages[i] with is_read := true }) ∧
      (¬(db.messages[i].id = mid ∧ db.messages[i].recipient_id = uid) →
        ((markRead db mid uid).2.messages)[i]? = some db.messages[i])) := by
  refine ⟨?_, ?_, ?_⟩
  · by_cases h : ∀ m ∈ db.messages, ¬(m.id = mid ∧ m.recipient_id = uid)
    · have hnil : db.messages.filter (readMatch mid uid) = [] :=
        (markRead_filter_nil_iff db mid uid).mpr h
      unfold markRead
      simp [hnil, h]
      intro m hm h1 h2
      exact h m hm ⟨h1, h2⟩
    · have hne : db.messages.filter (readMatch mid uid) ≠ [] := by
        intro hc
        exact h ((markRead_filter_nil_iff db mid uid).mp hc)
      unfold markRead
      rw [if_neg (by simpa [List.isEmpty_iff] using hne)]
      simp [h]
      push_neg at h
      simpa using h
  · intro h
    rw [markRead_snd]
    have hid : db.messages.map (fun m =>
        if readMatch mid uid m then { m with is_read := true } else m) = db.messages := by
      have := List.map_congr_left (l := db.messages)
        (f := fun m => if readMatch mid uid m then { m with is_read := true } else m)
        (g := id) ?_
      · simpa using this
      · intro m hm
        have hfalse : readMatch mid uid m = false := by
          simpa [readMatch] using h m hm
        simp [hfalse]
    rw [hid, DB_set_messages_self]
  · intro i hi
    rw [markRead_snd]
    constructor
    · intro hm
      have hmatch : readMatch mid uid db.messages[i] = true := by
        simpa [readMatch] using hm
      simp [List.getElem?_map, List.getElem?_eq_getElem hi, hmatch]
    · intro hm
      have hmatch : readMatch mid uid db.messages[i] = false := by
        simpa [readMatch] using hm
      simp [List.getElem?_map, List.getElem?_eq_getElem hi, hmatch]

/-- Witness for C5: in the concrete store, the recipient's call succeeds and
marks the row read, a non-recipient's call fails with the merged error
leaving the store unchanged. -/
theorem markRead_spec_witness :
    ((markRead exDbMsg 7 1).1 = .error .notFoundOrUnauthorized) ∧
    (markRead exDbMsg 7 1).2 = exDbMsg ∧
    ((markRead exDbMsg 7 2).2.messages)[0]? =
      some ⟨7, 1, 2, "hello", 3, true⟩ := by
  refine ⟨?_, ?_, ?_⟩
  · exact (markRead_spec exDbMsg 7 1).1.mpr (by decide)
  · exact (markRead_spec exDbMsg 7 1).2.1 (by decide)
  · exact ((markRead_spec exDbMsg 7 2).2.2 0 (by decide)).1 (by decide)

/-- C10: marking a message read is idempotent at the route level — when the
message is already read and addressed to the caller, the call still answers
success and leaves the store exactly as it was, so `is_read` never reverts. -/
theorem markRead_idempotent (db : DB) (mid uid : Nat) (m : Message)
    (hm : m ∈ db.messages) (hid : m.id = mid) (hrec : m.recipient_id = uid)
    (hall : ∀ x ∈ db.messages, x.id = mid → x.recipient_id = uid → x.is_read = true) :
    (∃ rows, (markRead db mid uid).1 = .ok rows) ∧ (markRead db mid uid).2 = db := by
  have hmatch : readMatch mid uid m = true := by
    simp [readMatch, hid, hrec]
  have hne : db.messages.filter (readMatch mid uid) ≠ [] :=
    List.ne_nil_of_mem (List.mem_filter.mpr ⟨hm, hmatch⟩)
  constructor
  · refine ⟨(db.messages.filter (readMatch mid uid)).map fun x => { x with is_read := true }, ?_⟩
    unfold markRead
    rw [if_neg (by simpa [List.isEmpty_iff] using hne)]
  · rw [markRead_snd]
    have hmap : db.messages.map (fun x =>
        if readMatch mid uid x then { x with is_read := true } else x) = db.messages := by
      have := List.map_congr_left (l := db.messages)
        (f := fun x => if readMatch mid uid x then { x with is_read := true } else x)
        (g := id) ?_
      · simpa using this
      · intro x hx
        by_cases hx2 : readMatch mid uid x = true
        · have hparts : x.id = mid ∧ x.recipient_id = uid := by
            simpa [readMatch] using hx2
          have hread := hall x hx hparts.1 hparts.2
          simp [hx2, Message_set_read_self hread]
        · simp [hx2]
    rw [hmap, DB_set_messages_self]

/-- Witness for C10: re-marking the already-read concrete message succeeds
and the store is bit-for-bit unchanged. -/
theorem markRead_idempotent_witness :
    (∃ rows, (markRead exDbRead 8 1).1 = .ok rows) ∧ (markRead exDbRead 8 1).2 = exDbRead := by
  exact markRead_idempotent exDbRead 8 1 ⟨8, 2, 1, "yo", 4, true⟩
    (by decide) rfl rfl (by decide)

/-- A user found by `findUser` is a stored user with the looked-up id. -/
theorem findUser_some {db : DB} {uid : Nat} {u : User} (h : findUser db uid = some u) :
    u ∈ db.users ∧ u.id = uid := by
  refine ⟨List.mem_of_find?_eq_some h, ?_⟩
  have h2 := List.find?_some h
  simpa using h2

/-- Dissection of a successful two-sided username join. -/
theorem joinUsernames_some {db : DB} {m : Message} {r : MessageRow}
    (h : joinUsernames db m = some r) :
    ∃ u1 u2, findUser db m.sender_id = some u1 ∧ findUser db m.recipient_id = some u2 ∧
      r = ⟨m.id, m.sender_id, m.recipient_id, m.content, m.created_at, m.is_read,
           u1.username, u2.username⟩ := by
  unfold joinUsernames at h
  cases h1 : findUser db m.sender_id with
  | none =>
    rw [h1] at h
    simp at h
  | some u1 =>
    cases h2 : findUser db m.recipient_id with
    | none =>
      rw [h1, h2] at h
      simp at h
    | some u2 =>
      rw [h1, h2] at h
      simp at h
      exact ⟨u1, u2, rfl, rfl, h.symm⟩

/-- C8: the pairwise conversation view is sorted ascending by `created_at`,
and a joined row is in the view exactly when it comes from a stored message
whose `{sender, recipient}` is the unordered pair `{a, b}` (either
direction, with no limit); every returned row carries the usernames of its
two endpoints as stored in the user table. -/
theorem conversationWith_spec (db : DB) (a b : Nat) :
    (conversationWith db a b).Sorted byCreatedAtAsc ∧
    (∀ r, r ∈ conversationWith db a b ↔
      ∃ m, m ∈ db.messages ∧
        ((m.sender_id = a ∧ m.recipient_id = b) ∨ (m.sender_id = b ∧ m.recipient_id = a)) ∧
        joinUsernames db m = some r) ∧
    (∀ r ∈ conversationWith db a b,
      (∃ u, u ∈ db.users ∧ u.id = r.sender_id ∧ r.sender_username = u.username) ∧
      (∃ u, u ∈ db.users ∧ u.id = r.recipient_id ∧ r.recipient_username = u.username)) := by
  have hperm := List.perm_insertionSort byCreatedAtAsc
    ((db.messages.filter (betweenUsers a b)).filterMap (joinUsernames db))
  have hmem : ∀ r, r ∈ conversationWith db a b ↔
      ∃ m, m ∈ db.messages ∧
        ((m.sender_id = a ∧ m.recipient_id = b) ∨ (m.sender_id = b ∧ m.recipient_id = a)) ∧
        joinUsernames db m = some r := by
    intro r
    unfold conversationWith
    rw [hperm.mem_iff, List.mem_filterMap]
    constructor
    · rintro ⟨m, hm, hj⟩
      rw [List.mem_filter] at hm
      refine ⟨m, hm.1, ?_, hj⟩
      simpa [betweenUsers] using hm.2
    · rintro ⟨m, hm, hcond, hj⟩
      exact ⟨m, List.mem_filter.mpr ⟨hm, by simpa [betweenUsers] using hcond⟩, hj⟩
  refine ⟨List.sorted_insertionSort byCreatedAtAsc _, hmem, ?_⟩
  intro r hr
  rcases (hmem r).mp hr with ⟨m, _, _, hj⟩
  rcases joinUsernames_some hj with ⟨u1, u2, h1, h2, hre⟩
  rcases findUser_some h1 with ⟨hu1m, hu1id⟩
  rcases findUser_some h2 with ⟨hu2m, hu2id⟩
  subst hre
  exact ⟨⟨u1, hu1m, hu1id, rfl⟩, ⟨u2, hu2m, hu2id, rfl⟩⟩

/-- Witness for C8: the concrete one-message conversation is sorted and the
message appears, joined with both usernames. -/
theorem conversationWith_spec_witness :
    (conversationWith exDbMsg 1 2).Sorted byCreatedAtAsc ∧
    (⟨7, 1, 2, "hello", 3, false, "alice", "bob"⟩ : MessageRow) ∈ conversationWith exDbMsg 1 2 := by
  refine ⟨(conversationWith_spec exDbMsg 1 2).1, ?_⟩
  exact ((conversationWith_spec exDbMsg 1 2).2.1 _).mpr
    ⟨⟨7, 1, 2, "hello", 3, false⟩, by decide, by decide, by rfl⟩

/-- The client transform emits exactly two turns per stored exchange. -/
theorem loadAiHistory_length (l : List AiExchange) :
    (loadAiHistory l).length = 2 * l.length := by
  induction l with
  | nil => rfl
  | cons x xs ih =>
    simp only [loadAiHistory, List.flatMap_cons, List.cons_append, List.nil_append,
      List.length_cons] at ih ⊢
    omega

/-- The client transform keeps each exchange's two turns adjacent and in
user-then-assistant order: the turn at index `2i` is the user part of the
`i`-th row and the turn at `2i + 1` its assistant part. -/
theorem loadAiHistory_getElem (l : List AiExchange) (i : Nat) (hi : i < l.length) :
    (loadAiHistory l)[2 * i]? = some ⟨Role.user, l[i].message⟩ ∧
    (loadAiHistory l)[2 * i + 1]? = some ⟨Role.assistant, l[i].response⟩ := by
  induction l generalizing i with
  | nil => simp at hi
  | cons x xs ih =>
    cases i with
    | zero =>
      simp [loadAiHistory]
    | succ j =>
      have hj : j < xs.length := by simpa using hi
      have hrec := ih j hj
      have e1 : 2 * (j + 1) = (2 * j + 1) + 1 := by ring
      have e2 : 2 * (j + 1) + 1 = ((2 * j + 1) + 1) + 1 := by ring
      constructor
      · rw [e1]
        simp only [loadAiHistory, List.flatMap_cons, List.cons_append, List.nil_append,
          List.getElem?_cons_succ]
        exact hrec.1
      · rw [e2]
        simp only [loadAiHistory, List.flatMap_cons, List.cons_append, List.nil_append,
          List.getElem?_cons_succ]
        exact hrec.2

/-- Counterexample to C2: with two stored exchanges (times 1 and 2) the
reconstructed turn sequence starts with the *newest* round-trip, not the
oldest-first order the claim requires. -/
theorem aiHistory_order_cex :
    loadAiHistory (getAiHistory exDbAi 1) =
      [⟨Role.user, "m2"⟩, ⟨Role.assistant, "r2"⟩, ⟨Role.user, "m1"⟩, ⟨Role.assistant, "r1"⟩] ∧
    loadAiHistory (getAiHistory exDbAi 1) ≠
      [⟨Role.user, "m1"⟩, ⟨Role.assistant, "r1"⟩, ⟨Role.user, "m2"⟩, ⟨Role.assistant, "r2"⟩] := by
  exact ⟨by decide, by decide⟩

/-- C2 (amended): for a user with at most 50 stored exchanges, the fetched
history is a permutation of all the user's rows ordered newest-first, and
the client transform yields exactly `2N` turns where the turns at `2i` and
`2i + 1` are the user and assistant parts of the `i`-th *newest* exchange —
alternating, pairwise adjacent, never interleaved, but newest round-trip
first rather than oldest-first. -/
theorem aiHistory_reconstruction_spec (db : DB) (userId : Nat)
    (h : (db.ai_chat_history.filter fun r => decide (r.user_id = userId)).length ≤ 50) :
    (getAiHistory db userId).Perm
      (db.ai_chat_history.filter fun r => decide (r.user_id = userId)) ∧
    (getAiHistory db userId).Sorted byAiNewestFirst ∧
    (loadAiHistory (getAiHistory db userId)).length = 2 * (getAiHistory db userId).length ∧
    (∀ i (hi : i < (getAiHistory db userId).length),
      (loadAiHistory (getAiHistory db userId))[2 * i]? =
        some ⟨Role.user, (getAiHistory db userId)[i].message⟩ ∧
      (loadAiHistory (getAiHistory db userId))[2 * i + 1]? =
        some ⟨Role.assistant, (getAiHistory db userId)[i].response⟩) := by
  have hperm := List.perm_insertionSort byAiNewestFirst
    (db.ai_chat_history.filter fun r => decide (r.user_id = userId))
  have hlen : (List.insertionSort byAiNewestFirst
      (db.ai_chat_history.filter fun r => decide (r.user_id = userId))).length ≤ 50 := by
    rw [hperm.length_eq]
    exact h
  have htake : getAiHistory db userId = List.insertionSort byAiNewestFirst
      (db.ai_chat_history.filter fun r => decide (r.user_id = userId)) := by
    unfold getAiHistory
    exact List.take_of_length_le hlen
  refine ⟨?_, ?_, loadAiHistory_length _, fun i hi => loadAiHistory_getElem _ i hi⟩
  · rw [htake]
    exact hperm
  · rw [htake]
    exact List.sorted_insertionSort byAiNewestFirst _

/-- Witness for C2 (amended): the concrete two-exchange history satisfies
the permutation and length facts via the theorem. -/
theorem aiHistory_reconstruction_spec_witness :
    (getAiHistory exDbAi 1).Perm (exDbAi.ai_chat_history.filter fun r => decide (r.user_id = 1)) ∧
    (loadAiHistory (getAiHistory exDbAi 1)).length = 2 * (getAiHistory exDbAi 1).length := by
  exact ⟨(aiHistory_reconstruction_spec exDbAi 1 (by decide)).1,
         (aiHistory_reconstruction_spec exDbAi 1 (by decide)).2.2.1⟩

/-- `distinctOn` keeps a sublist of its input. -/
theorem distinctOn_sublist {α : Type} (key : α → Nat) (l : List α) :
    (distinctOn key l).Sublist l := by
  induction l with
  | nil => simp [distinctOn]
  | cons x xs ih =>
    rw [distinctOn]
    exact List.Sublist.cons₂ x ((List.filter_sublist _).trans ih)

/-- `distinctOn` leaves at most one row per key. -/
theorem distinctOn_keys_nodup {α : Type} (key : α → Nat) (l : List α) :
    ((distinctOn key l).map key).Nodup := by
  induction l with
  | nil => simp [distinctOn]
  | cons x xs ih =>
    rw [distinctOn]
    simp only [List.map_cons, List.nodup_cons]
    constructor
    · intro hmem
      rcases List.mem_map.mp hmem with ⟨y, hy, he⟩
      have hne := (List.mem_filter.mp hy).2
      simp only [decide_eq_true_eq] at hne
      exact hne he
    · exact (((List.filter_sublist (distinctOn key xs)).map key).nodup ih)

/-- In a sorted list, the row `distinctOn` keeps for a key is `le`-below
every row of that key: it is the group's representative chosen by the sort
order. -/
theorem distinctOn_le_of_mem {α : Type} (key : α → Nat) (le : α → α → Prop)
    (hrefl : ∀ z, le z z) :
    ∀ l : List α, l.Pairwise le →
      ∀ r ∈ distinctOn key l, ∀ y ∈ l, key y = key r → le r y := by
  intro l
  induction l with
  | nil =>
    intro _ r hr
    simp [distinctOn] at hr
  | cons x xs ih =>
    intro hp r hr y hy hk
    rw [List.pairwise_cons] at hp
    rw [distinctOn] at hr
    rcases List.mem_cons.mp hr with hrx | hrt
    · subst hrx
      rcases List.mem_cons.mp hy with hyx | hyt
      · subst hyx
        exact hrefl _
      · exact hp.1 y hyt
    · have hrm := List.mem_filter.mp hrt
      have hrne : key r ≠ key x := by simpa using hrm.2
      rcases List.mem_cons.mp hy with hyx | hyt
      · subst hyx
        exact absurd hk.symm hrne
      · exact ih hp.2 r hrm.1 y hyt hk

/-- Dissection of a successful conversation-list join: the row carries the
message's timestamp and the counterpart expression's value. -/
theorem joinConversation_some {db : DB} {userId : Nat} {m : Message} {r : ConversationRow}
    (h : joinConversation db userId m = some r) :
    r.created_at = m.created_at ∧ r.other_user_id = counterpart userId m := by
  unfold joinConversation at h
  cases h1 : findUser db m.sender_id with
  | none =>
    rw [h1] at h
    simp at h
  | some u1 =>
    cases h2 : findUser db m.recipient_id with
    | none =>
      rw [h1, h2] at h
      simp at h
    | some u2 =>
      rw [h1, h2] at h
      simp at h
      rw [← h]
      exact ⟨rfl, rfl⟩

/-- Counterexample to C1: in the concrete store, user 1's conversation list
comes back with last-message timestamps `[5, 10]` — ordered by counterpart
id, not by descending last-message timestamp as the claim requires. -/
theorem listConversations_order_cex :
    (listConversations exDbConv 1).map (fun r => r.created_at) = [5, 10] ∧
    ¬ List.Sorted (fun a b : Nat => b ≤ a)
        ((listConversations exDbConv 1).map fun r => r.created_at) := by
  exact ⟨by decide, by decide⟩

/-- C1 (amended): the conversation list has at most one entry per distinct
counterpart; its entries are ordered by *counterpart id ascending* (the
`DISTINCT ON` key), not by last-message timestamp; and each entry is the
newest joined message of its counterpart group — every stored message of
the user with the same counterpart that survives the join is no newer. -/
theorem listConversations_spec (db : DB) (userId : Nat) :
    ((listConversations db userId).map fun r => r.other_user_id).Nodup ∧
    List.Sorted (· ≤ ·) ((listConversations db userId).map fun r => r.other_user_id) ∧
    (∀ r ∈ listConversations db userId, ∀ m ∈ db.messages,
      (m.sender_id = userId ∨ m.recipient_id = userId) →
      counterpart userId m = r.other_user_id →
      (∃ mr, joinConversation db userId m = some mr) →
      m.created_at ≤ r.created_at) := by
  have hsort : (List.insertionSort byCounterpartThenNewest
      ((db.messages.filter fun m =>
          decide (m.sender_id = userId ∨ m.recipient_id = userId)).filterMap
        (joinConversation db userId))).Pairwise byCounterpartThenNewest :=
    List.sorted_insertionSort byCounterpartThenNewest _
  have hlc : listConversations db userId = distinctOn (fun r => r.other_user_id)
      (List.insertionSort byCounterpartThenNewest
        ((db.messages.filter fun m =>
            decide (m.sender_id = userId ∨ m.recipient_id = userId)).filterMap
          (joinConversation db userId))) := rfl
  refine ⟨?_, ?_, ?_⟩
  · rw [hlc]
    exact distinctOn_keys_nodup _ _
  · rw [hlc]
    have hpw : (distinctOn (fun r => r.other_user_id)
        (List.insertionSort byCounterpartThenNewest
          ((db.messages.filter fun m =>
              decide (m.sender_id = userId ∨ m.recipient_id = userId)).filterMap
            (joinConversation db userId)))).Pairwise byCounterpartThenNewest :=
      List.Pairwise.sublist (distinctOn_sublist _ _) hsort
    rw [List.Sorted, List.pairwise_map]
    refine hpw.imp ?_
    intro a b hab
    rcases hab with h1 | ⟨h1, _⟩
    · exact Nat.le_of_lt h1
    · exact Nat.le_of_eq h1
  · intro r hr m hm hcond hkey hjoin
    rcases hjoin with ⟨mr, hj⟩
    rcases joinConversation_some hj with ⟨hts, hother⟩
    have hmrmem : mr ∈ List.insertionSort byCounterpartThenNewest
        ((db.messages.filter fun m =>
            decide (m.sender_id = userId ∨ m.recipient_id = userId)).filterMap
          (joinConversation db userId)) := by
      rw [(List.perm_insertionSort _ _).mem_iff, List.mem_filterMap]
      exact ⟨m, List.mem_filter.mpr ⟨hm, by simpa using hcond⟩, hj⟩
    have hkeyeq : mr.other_user_id = r.other_user_id := by
      rw [hother, hkey]
    rw [hlc] at hr
    have hle := distinctOn_le_of_mem (fun z => z.other_user_id) byCounterpartThenNewest
      (fun z => Or.inr ⟨rfl, Nat.le_refl _⟩) _ hsort r hr mr hmrmem hkeyeq
    rcases hle with h1 | ⟨_, h2⟩
    · exact absurd (hkeyeq ▸ h1) (Nat.lt_irrefl _)
    · rw [← hts]
      exact h2

/-- Witness for C1 (amended): at the concrete store the counterpart keys are
distinct and ascending, and the kept entry of counterpart 2 dominates that
counterpart's message timestamps. -/
theorem listConversations_spec_witness :
    ((listConversations exDbConv 1).map fun r => r.other_user_id).Nodup ∧
    List.Sorted (· ≤ ·) ((listConversations exDbConv 1).map fun r => r.other_user_id) ∧
    (5 : Nat) ≤ 5 := by
  refine ⟨(listConversations_spec exDbConv 1).1, (listConversations_spec exDbConv 1).2.1, ?_⟩
  exact (listConversations_spec exDbConv 1).2.2
    ⟨1, 2, 1, "hi from bob", 5, false, "bob", "alice", "bob", 2⟩ (by decide)
    ⟨1, 2, 1, "hi from bob", 5, false⟩ (by decide) (by decide) (by decide)
    ⟨⟨1, 2, 1, "hi from bob", 5, false, "bob", "alice", "bob", 2⟩, by rfl⟩

end Messaging
